import Mathlib

/-!
Shallow embedding of the AMM core of `src/amm.rs` and `src/lib.rs`
(`initialize_pool`, `add_liquidity`, `remove_liquidity`,
`swap_sol_for_tokens`, `swap_tokens_for_sol`).

Machine integers are modelled as `Nat` with explicit `% 2^64` where the
source casts a `u128` intermediate to `u64`, and the `checked_*` u64/u128
operations return `Option Nat` exactly where the source's `checked_mul`,
`checked_div`, `checked_add`, `checked_sub` return `Option`.  An
`.unwrap()` on `none` is a Rust panic, modelled by the `Outcome.abort`
constructor carrying the pool state staged at that point.  External
transfer/mint/burn CPIs move value outside the pool record and are
outside the model.
-/

set_option maxRecDepth 4000

/-- Fee numerator from the source: 0.3% = 3/1000. -/
def FEE_NUMERATOR : Nat := 3

/-- Fee denominator from the source. -/
def FEE_DENOMINATOR : Nat := 1000

/-- One past the largest `u64` value. -/
def U64_LIMIT : Nat := 2 ^ 64

/-- One past the largest `u128` value. -/
def U128_LIMIT : Nat := 2 ^ 128

/-- Rust `as u64` applied to a `u128` value: truncation modulo `2^64`. -/
def toU64 (n : Nat) : Nat := n % U64_LIMIT

/-- `u128::checked_mul`. -/
def checked_mul_u128 (a b : Nat) : Option Nat :=
  if a * b < U128_LIMIT then some (a * b) else none

/-- `u128::checked_div`: `none` exactly when the divisor is zero. -/
def checked_div_u128 (a b : Nat) : Option Nat :=
  if b = 0 then none else some (a / b)

/-- `u128::checked_add`. -/
def checked_add_u128 (a b : Nat) : Option Nat :=
  if a + b < U128_LIMIT then some (a + b) else none

/-- `u64::checked_add`. -/
def checked_add_u64 (a b : Nat) : Option Nat :=
  if a + b < U64_LIMIT then some (a + b) else none

/-- `u64::checked_sub`. -/
def checked_sub_u64 (a b : Nat) : Option Nat :=
  if b ≤ a then some (a - b) else none

/-- The pool state fields the AMM arithmetic reads and writes
(`AmmPool` in the source; the pubkey and bump fields are identity
plumbing never touched by the arithmetic). -/
structure AmmPool where
  sol_reserve : Nat
  token_reserve : Nat
  lp_supply : Nat
  is_initialized : Bool
  deriving DecidableEq, Repr

/-- The `AmmError` enum of the source. -/
inductive AmmError where
  | InvalidAmount
  | PoolNotInitialized
  | SlippageExceeded
  | InsufficientLiquidity
  | MathOverflow
  deriving DecidableEq, Repr

/-- Result of one instruction on the pool.  `ok` carries the committed pool
and the instruction's computed outputs; `err` carries the pool as staged at
the early `require!` return together with its error code; `abort` is a Rust
panic (`.unwrap()` on `none`) and carries the pool as staged at the panic
point. -/
inductive Outcome (α : Type) where
  | ok : AmmPool → α → Outcome α
  | err : AmmPool → AmmError → Outcome α
  | abort : AmmPool → Outcome α
  deriving DecidableEq, Repr

/-- The error code of an outcome, when the outcome is an error return. -/
def Outcome.errCode {α : Type} : Outcome α → Option AmmError
  | .err _ e => some e
  | _ => none

/-- Whether the outcome is a panic. -/
def Outcome.isAbort {α : Type} : Outcome α → Bool
  | .abort _ => true
  | _ => false

/-- `true` unless the outcome is an error return whose staged pool differs
from `p0`. -/
def Outcome.errKeeps {α : Type} (o : Outcome α) (p0 : AmmPool) : Bool :=
  match o with
  | .err p _ => p == p0
  | _ => true

/-- Outputs of a swap instruction. -/
structure SwapOut where
  output_amount : Nat
  fee_amount : Nat
  deriving DecidableEq, Repr

/-- Outputs of `add_liquidity`. -/
structure AddOut where
  token_amount : Nat
  lp_amount : Nat
  deriving DecidableEq, Repr

/-- Outputs of `remove_liquidity`. -/
structure RemoveOut where
  sol_amount : Nat
  token_amount : Nat
  deriving DecidableEq, Repr

/-- All pool fields fit in `u64`, as they do in the source's struct. -/
def AmmPool.wf (p : AmmPool) : Prop :=
  p.sol_reserve < U64_LIMIT ∧ p.token_reserve < U64_LIMIT ∧ p.lp_supply < U64_LIMIT

instance (p : AmmPool) : Decidable p.wf := by
  unfold AmmPool.wf; infer_instance

/-! IEEE-754 binary64 model for the one floating-point expression in the
source, `(initial_sol_amount as f64 * initial_token_amount as f64).sqrt() as u64`.
All values involved are nonnegative reals whose rounded forms are computed
exactly in integer arithmetic. -/

/-- Fuel-based bit length so the kernel can evaluate it. -/
def bitLenAux : Nat → Nat → Nat
  | 0, _ => 0
  | fuel + 1, n => if n = 0 then 0 else bitLenAux fuel (n / 2) + 1

/-- Number of binary digits of `n` (0 for 0); fuel 256 covers everything
up to `2^256`. -/
def bitLen (n : Nat) : Nat := bitLenAux 256 n

/-- Floor of the base-2 logarithm (0 at 0). -/
def floorLog2 (n : Nat) : Nat := bitLen n - 1

/-- Integer square root by descending binary digits, fuel-based so the
kernel can evaluate it; exact for arguments below `2^256`. -/
def isqrtAux (n : Nat) : Nat → Nat → Nat
  | 0, r => r
  | k + 1, r =>
    let c := r + 2 ^ k
    if c * c ≤ n then isqrtAux n k c else isqrtAux n k r

/-- Integer square root (floor), for arguments below `2^256`. -/
def isqrtBits (n : Nat) : Nat := isqrtAux n 128 0

/-- Round a natural number to the nearest IEEE-754 binary64 value
(round-to-nearest, ties-to-even), returned as a natural number.  This is
the identity below `2^53`.  Models both the Rust `u64 as f64` conversion
and the rounding step of an f64 multiplication whose real product is a
natural number. -/
def roundF64 (n : Nat) : Nat :=
  if n < 2 ^ 53 then n
  else
    let e := floorLog2 n - 52
    let q := n / 2 ^ e
    let r := n % 2 ^ e
    let half := 2 ^ (e - 1)
    if half < r ∨ (r = half ∧ q % 2 = 1) then (q + 1) * 2 ^ e else q * 2 ^ e

/-- For a binary64 value given as the natural number `p`, the
correctly-rounded (round-to-nearest, ties-to-even) binary64 square root
of `p`, truncated toward zero: models Rust `f64::sqrt` (IEEE-correctly
rounded) followed by the truncating `as u64` cast, before saturation.
The significand of `√p` lives in `[2^52, 2^53)` after scaling by
`2^(52-h)` (or dividing by `2^(h-52)`) where `2^h ≤ √p < 2^(h+1)`. -/
def f64SqrtFloor (p : Nat) : Nat :=
  if p = 0 then 0
  else
    let h := floorLog2 p / 2
    if h ≤ 52 then
      let k := 52 - h
      let m := isqrtBits (p * 4 ^ k)
      let m1 := if (2 * m + 1) ^ 2 < 4 * (p * 4 ^ k) then m + 1 else m
      m1 / 2 ^ k
    else
      let g := h - 52
      let m := isqrtBits p / 2 ^ g
      let mid := (2 * m + 1) ^ 2 * 4 ^ (g - 1)
      let m1 := if mid < p ∨ (mid = p ∧ m % 2 = 1) then m + 1 else m
      m1 * 2 ^ g

/-- The source's initial-LP computation
`(initial_sol_amount as f64 * initial_token_amount as f64).sqrt() as u64`:
both operands are rounded to binary64, their product is rounded (binary64
multiplication of the exact product), the square root is correctly
rounded, and the final cast truncates toward zero saturating at
`u64::MAX`. -/
def lp_sqrt_f64 (a b : Nat) : Nat :=
  min (f64SqrtFloor (roundF64 (roundF64 a * roundF64 b))) (U64_LIMIT - 1)

/-! The five pool instructions, translated statement by statement.  The
`require!` macro returns the error before any state mutation; the staged
pool is threaded through the commit phase so that an `.unwrap()` panic
after a field assignment carries the partially-updated pool. -/

/-- `initialize_pool` of `src/amm.rs` (and `initialize_amm_pool` of
`src/lib.rs`, whose reserve/LP arithmetic is identical): requires both
seeds nonzero, sets the reserves, computes the initial LP amount with the
f64 square root, sets `lp_supply`, and marks the pool initialized.  The
returned payload is the LP amount minted to the initializer. -/
def initialize_pool (pool : AmmPool) (initial_sol_amount initial_token_amount : Nat) :
    Outcome Nat :=
  if ¬ 0 < initial_sol_amount then .err pool .InvalidAmount
  else if ¬ 0 < initial_token_amount then .err pool .InvalidAmount
  else
    let lp_amount := lp_sqrt_f64 initial_sol_amount initial_token_amount
    .ok { pool with
            sol_reserve := initial_sol_amount,
            token_reserve := initial_token_amount,
            lp_supply := lp_amount,
            is_initialized := true } lp_amount

/-- `add_liquidity` of `src/amm.rs` (`add_liquidity_to_pool` of
`src/lib.rs` is arithmetically identical). -/
def add_liquidity (pool : AmmPool) (sol_amount max_token_amount min_lp_amount : Nat) :
    Outcome AddOut :=
  if ¬ 0 < sol_amount then .err pool .InvalidAmount
  else if ¬ pool.is_initialized then .err pool .PoolNotInitialized
  else match checked_mul_u128 sol_amount pool.token_reserve with
  | none => .abort pool
  | some m1 =>
    match checked_div_u128 m1 pool.sol_reserve with
    | none => .abort pool
    | some d1 =>
      let token_amount := toU64 d1
      if ¬ token_amount ≤ max_token_amount then .err pool .SlippageExceeded
      else match checked_mul_u128 sol_amount pool.lp_supply with
      | none => .abort pool
      | some m2 =>
        match checked_div_u128 m2 pool.sol_reserve with
        | none => .abort pool
        | some d2 =>
          let lp_from_sol := toU64 d2
          match checked_mul_u128 token_amount pool.lp_supply with
          | none => .abort pool
          | some m3 =>
            match checked_div_u128 m3 pool.token_reserve with
            | none => .abort pool
            | some d3 =>
              let lp_from_token := toU64 d3
              let lp_amount := min lp_from_sol lp_from_token
              if ¬ min_lp_amount ≤ lp_amount then .err pool .SlippageExceeded
              else match checked_add_u64 pool.sol_reserve sol_amount with
              | none => .abort pool
              | some ns =>
                let pool1 := { pool with sol_reserve := ns }
                match checked_add_u64 pool1.token_reserve token_amount with
                | none => .abort pool1
                | some nt =>
                  let pool2 := { pool1 with token_reserve := nt }
                  match checked_add_u64 pool2.lp_supply lp_amount with
                  | none => .abort pool2
                  | some nl =>
                    .ok { pool2 with lp_supply := nl } ⟨token_amount, lp_amount⟩

/-- `remove_liquidity` of `src/amm.rs` (`remove_liquidity_from_pool` of
`src/lib.rs` is arithmetically identical). -/
def remove_liquidity (pool : AmmPool) (lp_amount min_sol_amount min_token_amount : Nat) :
    Outcome RemoveOut :=
  if ¬ 0 < lp_amount then .err pool .InvalidAmount
  else if ¬ pool.is_initialized then .err pool .PoolNotInitialized
  else match checked_mul_u128 lp_amount pool.sol_reserve with
  | none => .abort pool
  | some m1 =>
    match checked_div_u128 m1 pool.lp_supply with
    | none => .abort pool
    | some d1 =>
      let sol_amount := toU64 d1
      match checked_mul_u128 lp_amount pool.token_reserve with
      | none => .abort pool
      | some m2 =>
        match checked_div_u128 m2 pool.lp_supply with
        | none => .abort pool
        | some d2 =>
          let token_amount := toU64 d2
          if ¬ min_sol_amount ≤ sol_amount then .err pool .SlippageExceeded
          else if ¬ min_token_amount ≤ token_amount then .err pool .SlippageExceeded
          else match checked_sub_u64 pool.sol_reserve sol_amount with
          | none => .abort pool
          | some ns =>
            let pool1 := { pool with sol_reserve := ns }
            match checked_sub_u64 pool1.token_reserve token_amount with
            | none => .abort pool1
            | some nt =>
              let pool2 := { pool1 with token_reserve := nt }
              match checked_sub_u64 pool2.lp_supply lp_amount with
              | none => .abort pool2
              | some nl =>
                .ok { pool2 with lp_supply := nl } ⟨sol_amount, token_amount⟩

/-- `swap_sol_for_tokens` of `src/amm.rs` (`swap_sol_to_tokens` of
`src/lib.rs` is arithmetically identical): 0.3% fee off the input, then
the constant-product output, then slippage and liquidity checks, then the
reserve commit. -/
def swap_sol_for_tokens (pool : AmmPool) (sol_amount min_token_amount : Nat) :
    Outcome SwapOut :=
  if ¬ 0 < sol_amount then .err pool .InvalidAmount
  else if ¬ pool.is_initialized then .err pool .PoolNotInitialized
  else match checked_mul_u128 sol_amount FEE_NUMERATOR with
  | none => .abort pool
  | some mf =>
    match checked_div_u128 mf FEE_DENOMINATOR with
    | none => .abort pool
    | some df =>
      let fee_amount := toU64 df
      match checked_sub_u64 sol_amount fee_amount with
      | none => .abort pool
      | some sol_amount_after_fee =>
        match checked_mul_u128 sol_amount_after_fee pool.token_reserve with
        | none => .abort pool
        | some mn =>
          match checked_add_u128 pool.sol_reserve sol_amount_after_fee with
          | none => .abort pool
          | some dn =>
            match checked_div_u128 mn dn with
            | none => .abort pool
            | some dq =>
              let token_amount := toU64 dq
              if ¬ min_token_amount ≤ token_amount then .err pool .SlippageExceeded
              else if ¬ token_amount < pool.token_reserve then
                .err pool .InsufficientLiquidity
              else match checked_add_u64 pool.sol_reserve sol_amount with
              | none => .abort pool
              | some ns =>
                let pool1 := { pool with sol_reserve := ns }
                match checked_sub_u64 pool1.token_reserve token_amount with
                | none => .abort pool1
                | some nt =>
                  .ok { pool1 with token_reserve := nt } ⟨token_amount, fee_amount⟩

/-- `swap_tokens_for_sol` of `src/amm.rs` (`swap_tokens_to_sol` of
`src/lib.rs` is arithmetically identical): the mirror-image swap. -/
def swap_tokens_for_sol (pool : AmmPool) (token_amount min_sol_amount : Nat) :
    Outcome SwapOut :=
  if ¬ 0 < token_amount then .err pool .InvalidAmount
  else if ¬ pool.is_initialized then .err pool .PoolNotInitialized
  else match checked_mul_u128 token_amount FEE_NUMERATOR with
  | none => .abort pool
  | some mf =>
    match checked_div_u128 mf FEE_DENOMINATOR with
    | none => .abort pool
    | some df =>
      let fee_amount := toU64 df
      match checked_sub_u64 token_amount fee_amount with
      | none => .abort pool
      | some token_amount_after_fee =>
        match checked_mul_u128 token_amount_after_fee pool.sol_reserve with
        | none => .abort pool
        | some mn =>
          match checked_add_u128 pool.token_reserve token_amount_after_fee with
          | none => .abort pool
          | some dn =>
            match checked_div_u128 mn dn with
            | none => .abort pool
            | some dq =>
              let sol_amount := toU64 dq
              if ¬ min_sol_amount ≤ sol_amount then .err pool .SlippageExceeded
              else if ¬ sol_amount < pool.sol_reserve then
                .err pool .InsufficientLiquidity
              else match checked_sub_u64 pool.sol_reserve sol_amount with
              | none => .abort pool
              | some ns =>
                let pool1 := { pool with sol_reserve := ns }
                match checked_add_u64 pool1.token_reserve token_amount with
                | none => .abort pool1
                | some nt =>
                  .ok { pool1 with token_reserve := nt } ⟨sol_amount, fee_amount⟩


/-! Arithmetic helper lemmas. -/

theorem toU64_le (n : Nat) : toU64 n ≤ n := Nat.mod_le n U64_LIMIT

theorem toU64_eq_of_lt {n : Nat} (h : n < U64_LIMIT) : toU64 n = n := Nat.mod_eq_of_lt h

theorem checked_mul_u128_some {a b c : Nat} (h : checked_mul_u128 a b = some c) :
    c = a * b ∧ a * b < U128_LIMIT := by
  unfold checked_mul_u128 at h; split at h <;> simp_all

theorem checked_div_u128_some {a b c : Nat} (h : checked_div_u128 a b = some c) :
    c = a / b ∧ b ≠ 0 := by
  unfold checked_div_u128 at h; split at h <;> simp_all

theorem checked_add_u128_some {a b c : Nat} (h : checked_add_u128 a b = some c) :
    c = a + b ∧ a + b < U128_LIMIT := by
  unfold checked_add_u128 at h; split at h <;> simp_all

theorem checked_add_u64_some {a b c : Nat} (h : checked_add_u64 a b = some c) :
    c = a + b ∧ a + b < U64_LIMIT := by
  unfold checked_add_u64 at h; split at h <;> simp_all

theorem checked_sub_u64_some {a b c : Nat} (h : checked_sub_u64 a b = some c) :
    c = a - b ∧ b ≤ a := by
  unfold checked_sub_u64 at h; split at h <;> simp_all

theorem fee_le (x : Nat) : x * FEE_NUMERATOR / FEE_DENOMINATOR ≤ x := by
  unfold FEE_NUMERATOR FEE_DENOMINATOR
  calc x * 3 / 1000 ≤ x * 1000 / 1000 :=
        Nat.div_le_div_right (Nat.mul_le_mul_left x (by norm_num))
    _ = x := Nat.mul_div_cancel x (by norm_num)

theorem fee_lt {x : Nat} (hx : 0 < x) : x * FEE_NUMERATOR / FEE_DENOMINATOR < x := by
  unfold FEE_NUMERATOR FEE_DENOMINATOR
  have hmul : x * 3 < x * 1000 := by omega
  exact (Nat.div_lt_iff_lt_mul (by norm_num)).mpr hmul

theorem div_le_of_le_mul {a b c : Nat} (h : a ≤ b * c) : a / c ≤ b := by
  cases Nat.eq_zero_or_pos c with
  | inl h0 => subst h0; simp
  | inr hc =>
    calc a / c ≤ b * c / c := Nat.div_le_div_right h
      _ = b := Nat.mul_div_cancel b hc

/-- The quoted swap output is at most the opposing reserve. -/
theorem swap_out_le (A Q R : Nat) : A * Q / (R + A) ≤ Q := by
  cases Nat.eq_zero_or_pos A with
  | inl h0 => subst h0; simp
  | inr hA =>
    calc A * Q / (R + A) ≤ A * Q / A := Nat.div_le_div_left (Nat.le_add_left A R) hA
      _ = Q := Nat.mul_div_cancel_left Q hA

/-- With both reserves positive the quoted output is strictly below the
opposing reserve. -/
theorem swap_out_lt {Q R : Nat} (A : Nat) (hQ : 0 < Q) (hR : 0 < R) :
    A * Q / (R + A) < Q := by
  have hpos : 0 < R + A := by omega
  refine (Nat.div_lt_iff_lt_mul hpos).mpr ?_
  have hQR : 0 < Q * R := Nat.mul_pos hQ hR
  calc A * Q = Q * A := Nat.mul_comm A Q
    _ < Q * R + Q * A := by omega
    _ = Q * (R + A) := (Nat.mul_add Q R A).symm

/-- `Nat.sqrt` at a value bracketed between consecutive squares. -/
theorem sqrt_eq_exact {n s : Nat} (h1 : s * s ≤ n) (h2 : n < (s + 1) * (s + 1)) :
    Nat.sqrt n = s :=
  Nat.le_antisymm (Nat.lt_succ_iff.mp (Nat.sqrt_lt.mpr h2)) (Nat.le_sqrt.mpr h1)

/-- Core constant-product inequality: committing the full input (fee
included) while payingout the floored quote never decreases the reserve
product, and strictly increases it when the fee is positive. -/
theorem product_grows {R Q x fee y : Nat} (hfee : fee ≤ x)
    (hy : y * (R + (x - fee)) ≤ (x - fee) * Q) (hyQ : y < Q) :
    R * Q ≤ (R + x) * (Q - y) ∧ (0 < fee → R * Q < (R + x) * (Q - y)) := by
  have hA : x - fee + fee = x := Nat.sub_add_cancel hfee
  set A := x - fee with hAdef
  have hyQle : y ≤ Q := Nat.le_of_lt hyQ
  zify [hyQle] at *
  constructor
  · nlinarith
  · intro hf
    nlinarith


/-! Success-path inversion lemmas: what a committed (`.ok`) instruction
implies about its inputs, outputs and final pool. -/

theorem swap_sol_ok_inv {pool : AmmPool} {x mt : Nat} {p1 : AmmPool} {o : SwapOut}
    (h : swap_sol_for_tokens pool x mt = .ok p1 o) :
    0 < x ∧ pool.is_initialized = true ∧
    o.fee_amount = toU64 (x * FEE_NUMERATOR / FEE_DENOMINATOR) ∧
    o.output_amount =
      toU64 ((x - o.fee_amount) * pool.token_reserve /
        (pool.sol_reserve + (x - o.fee_amount))) ∧
    o.fee_amount ≤ x ∧
    pool.sol_reserve + (x - o.fee_amount) ≠ 0 ∧
    mt ≤ o.output_amount ∧
    o.output_amount < pool.token_reserve ∧
    pool.sol_reserve + x < U64_LIMIT ∧
    p1 = { pool with sol_reserve := pool.sol_reserve + x,
                     token_reserve := pool.token_reserve - o.output_amount } := by
  simp only [swap_sol_for_tokens] at h
  split at h
  · exact Outcome.noConfusion h
  rename_i hx0
  split at h
  · exact Outcome.noConfusion h
  rename_i hinit0
  split at h
  · exact Outcome.noConfusion h
  rename_i mf hmf
  split at h
  · exact Outcome.noConfusion h
  rename_i df hdf
  split at h
  · exact Outcome.noConfusion h
  rename_i saf hsaf
  split at h
  · exact Outcome.noConfusion h
  rename_i mn hmn
  split at h
  · exact Outcome.noConfusion h
  rename_i dn hdn
  split at h
  · exact Outcome.noConfusion h
  rename_i dq hdq
  split at h
  · exact Outcome.noConfusion h
  rename_i hslip
  split at h
  · exact Outcome.noConfusion h
  rename_i hliq
  split at h
  · exact Outcome.noConfusion h
  rename_i ns hns
  split at h
  · exact Outcome.noConfusion h
  rename_i nt hnt
  obtain ⟨hmf1, hmfb⟩ := checked_mul_u128_some hmf
  obtain ⟨hdf1, hdfb⟩ := checked_div_u128_some hdf
  obtain ⟨hsaf1, hflex⟩ := checked_sub_u64_some hsaf
  obtain ⟨hmn1, hmnb⟩ := checked_mul_u128_some hmn
  obtain ⟨hdn1, hdnb⟩ := checked_add_u128_some hdn
  obtain ⟨hdq1, hdn0⟩ := checked_div_u128_some hdq
  obtain ⟨hns1, hnsb⟩ := checked_add_u64_some hns
  obtain ⟨hnt1, hntb⟩ := checked_sub_u64_some hnt
  injection h with h1 h2
  subst hmf1 hdf1 hsaf1 hmn1 hdn1 hdq1 hns1 hnt1
  subst h1 h2
  exact ⟨not_not.mp hx0, not_not.mp hinit0, rfl, rfl, hflex, hdn0,
    not_not.mp hslip, not_not.mp hliq, hnsb, rfl⟩

theorem swap_tok_ok_inv {pool : AmmPool} {x ms : Nat} {p1 : AmmPool} {o : SwapOut}
    (h : swap_tokens_for_sol pool x ms = .ok p1 o) :
    0 < x ∧ pool.is_initialized = true ∧
    o.fee_amount = toU64 (x * FEE_NUMERATOR / FEE_DENOMINATOR) ∧
    o.output_amount =
      toU64 ((x - o.fee_amount) * pool.sol_reserve /
        (pool.token_reserve + (x - o.fee_amount))) ∧
    o.fee_amount ≤ x ∧
    pool.token_reserve + (x - o.fee_amount) ≠ 0 ∧
    ms ≤ o.output_amount ∧
    o.output_amount < pool.sol_reserve ∧
    pool.token_reserve + x < U64_LIMIT ∧
    p1 = { pool with sol_reserve := pool.sol_reserve - o.output_amount,
                     token_reserve := pool.token_reserve + x } := by
  simp only [swap_tokens_for_sol] at h
  split at h
  · exact Outcome.noConfusion h
  rename_i hx0
  split at h
  · exact Outcome.noConfusion h
  rename_i hinit0
  split at h
  · exact Outcome.noConfusion h
  rename_i mf hmf
  split at h
  · exact Outcome.noConfusion h
  rename_i df hdf
  split at h
  · exact Outcome.noConfusion h
  rename_i taf htaf
  split at h
  · exact Outcome.noConfusion h
  rename_i mn hmn
  split at h
  · exact Outcome.noConfusion h
  rename_i dn hdn
  split at h
  · exact Outcome.noConfusion h
  rename_i dq hdq
  split at h
  · exact Outcome.noConfusion h
  rename_i hslip
  split at h
  · exact Outcome.noConfusion h
  rename_i hliq
  split at h
  · exact Outcome.noConfusion h
  rename_i ns hns
  split at h
  · exact Outcome.noConfusion h
  rename_i nt hnt
  obtain ⟨hmf1, hmfb⟩ := checked_mul_u128_some hmf
  obtain ⟨hdf1, hdfb⟩ := checked_div_u128_some hdf
  obtain ⟨htaf1, hflex⟩ := checked_sub_u64_some htaf
  obtain ⟨hmn1, hmnb⟩ := checked_mul_u128_some hmn
  obtain ⟨hdn1, hdnb⟩ := checked_add_u128_some hdn
  obtain ⟨hdq1, hdn0⟩ := checked_div_u128_some hdq
  obtain ⟨hns1, hnsub⟩ := checked_sub_u64_some hns
  obtain ⟨hnt1, hntb⟩ := checked_add_u64_some hnt
  injection h with h1 h2
  subst hmf1 hdf1 htaf1 hmn1 hdn1 hdq1 hns1 hnt1
  subst h1 h2
  exact ⟨not_not.mp hx0, not_not.mp hinit0, rfl, rfl, hflex, hdn0,
    not_not.mp hslip, not_not.mp hliq, hntb, rfl⟩

theorem add_ok_inv {pool : AmmPool} {b mq ml : Nat} {p1 : AmmPool} {o : AddOut}
    (h : add_liquidity pool b mq ml = .ok p1 o) :
    0 < b ∧ pool.is_initialized = true ∧
    pool.sol_reserve ≠ 0 ∧ pool.token_reserve ≠ 0 ∧
    o.token_amount = toU64 (b * pool.token_reserve / pool.sol_reserve) ∧
    o.token_amount ≤ mq ∧
    o.lp_amount = min (toU64 (b * pool.lp_supply / pool.sol_reserve))
      (toU64 (o.token_amount * pool.lp_supply / pool.token_reserve)) ∧
    ml ≤ o.lp_amount ∧
    pool.sol_reserve + b < U64_LIMIT ∧
    pool.token_reserve + o.token_amount < U64_LIMIT ∧
    pool.lp_supply + o.lp_amount < U64_LIMIT ∧
    p1 = { pool with sol_reserve := pool.sol_reserve + b,
                     token_reserve := pool.token_reserve + o.token_amount,
                     lp_supply := pool.lp_supply + o.lp_amount } := by
  simp only [add_liquidity] at h
  split at h
  · exact Outcome.noConfusion h
  rename_i hb0
  split at h
  · exact Outcome.noConfusion h
  rename_i hinit0
  split at h
  · exact Outcome.noConfusion h
  rename_i m1 hm1
  split at h
  · exact Outcome.noConfusion h
  rename_i d1 hd1
  split at h
  · exact Outcome.noConfusion h
  rename_i hslip1
  split at h
  · exact Outcome.noConfusion h
  rename_i m2 hm2
  split at h
  · exact Outcome.noConfusion h
  rename_i d2 hd2
  split at h
  · exact Outcome.noConfusion h
  rename_i m3 hm3
  split at h
  · exact Outcome.noConfusion h
  rename_i d3 hd3
  split at h
  · exact Outcome.noConfusion h
  rename_i hslip2
  split at h
  · exact Outcome.noConfusion h
  rename_i ns hns
  split at h
  · exact Outcome.noConfusion h
  rename_i nt hnt
  split at h
  · exact Outcome.noConfusion h
  rename_i nl hnl
  obtain ⟨hm11, hm1b⟩ := checked_mul_u128_some hm1
  obtain ⟨hd11, hsol0⟩ := checked_div_u128_some hd1
  obtain ⟨hm21, hm2b⟩ := checked_mul_u128_some hm2
  obtain ⟨hd21, hsol0b⟩ := checked_div_u128_some hd2
  obtain ⟨hm31, hm3b⟩ := checked_mul_u128_some hm3
  obtain ⟨hd31, htok0⟩ := checked_div_u128_some hd3
  obtain ⟨hns1, hnsb⟩ := checked_add_u64_some hns
  obtain ⟨hnt1, hntb⟩ := checked_add_u64_some hnt
  obtain ⟨hnl1, hnlb⟩ := checked_add_u64_some hnl
  injection h with h1 h2
  subst hm11 hd11 hm21 hd21 hm31 hd31 hns1 hnt1 hnl1
  subst h1 h2
  exact ⟨not_not.mp hb0, not_not.mp hinit0, hsol0, htok0, rfl,
    not_not.mp hslip1, rfl, not_not.mp hslip2, hnsb, hntb, hnlb, rfl⟩

theorem remove_ok_inv {pool : AmmPool} {lp ms mt : Nat} {p1 : AmmPool} {o : RemoveOut}
    (h : remove_liquidity pool lp ms mt = .ok p1 o) :
    0 < lp ∧ pool.is_initialized = true ∧
    pool.lp_supply ≠ 0 ∧
    o.sol_amount = toU64 (lp * pool.sol_reserve / pool.lp_supply) ∧
    o.token_amount = toU64 (lp * pool.token_reserve / pool.lp_supply) ∧
    ms ≤ o.sol_amount ∧ mt ≤ o.token_amount ∧
    o.sol_amount ≤ pool.sol_reserve ∧
    o.token_amount ≤ pool.token_reserve ∧
    lp ≤ pool.lp_supply ∧
    p1 = { pool with sol_reserve := pool.sol_reserve - o.sol_amount,
                     token_reserve := pool.token_reserve - o.token_amount,
                     lp_supply := pool.lp_supply - lp } := by
  simp only [remove_liquidity] at h
  split at h
  · exact Outcome.noConfusion h
  rename_i hlp0
  split at h
  · exact Outcome.noConfusion h
  rename_i hinit0
  split at h
  · exact Outcome.noConfusion h
  rename_i m1 hm1
  split at h
  · exact Outcome.noConfusion h
  rename_i d1 hd1
  split at h
  · exact Outcome.noConfusion h
  rename_i m2 hm2
  split at h
  · exact Outcome.noConfusion h
  rename_i d2 hd2
  split at h
  · exact Outcome.noConfusion h
  rename_i hslip1
  split at h
  · exact Outcome.noConfusion h
  rename_i hslip2
  split at h
  · exact Outcome.noConfusion h
  rename_i ns hns
  split at h
  · exact Outcome.noConfusion h
  rename_i nt hnt
  split at h
  · exact Outcome.noConfusion h
  rename_i nl hnl
  obtain ⟨hm11, hm1b⟩ := checked_mul_u128_some hm1
  obtain ⟨hd11, hlps0⟩ := checked_div_u128_some hd1
  obtain ⟨hm21, hm2b⟩ := checked_mul_u128_some hm2
  obtain ⟨hd21, hlps0b⟩ := checked_div_u128_some hd2
  obtain ⟨hns1, hsolsub⟩ := checked_sub_u64_some hns
  obtain ⟨hnt1, htoksub⟩ := checked_sub_u64_some hnt
  obtain ⟨hnl1, hlpsub⟩ := checked_sub_u64_some hnl
  injection h with h1 h2
  subst hm11 hd11 hm21 hd21 hns1 hnt1 hnl1
  subst h1 h2
  exact ⟨not_not.mp hlp0, not_not.mp hinit0, hlps0, rfl, rfl,
    not_not.mp hslip1, not_not.mp hslip2, hsolsub, htoksub, hlpsub, rfl⟩


/-! Evaluation lemmas for the checked operations under `u64` bounds. -/

theorem mul_lt_u128 {a b : Nat} (ha : a < U64_LIMIT) (hb : b < U64_LIMIT) :
    a * b < U128_LIMIT := by
  calc a * b < U64_LIMIT * U64_LIMIT := Nat.mul_lt_mul'' ha hb
    _ = U128_LIMIT := by norm_num [U64_LIMIT, U128_LIMIT]

theorem checked_mul_u128_eq {a b : Nat} (ha : a < U64_LIMIT) (hb : b < U64_LIMIT) :
    checked_mul_u128 a b = some (a * b) := by
  unfold checked_mul_u128; rw [if_pos (mul_lt_u128 ha hb)]

theorem checked_div_u128_eq {a b : Nat} (h : b ≠ 0) :
    checked_div_u128 a b = some (a / b) := by
  unfold checked_div_u128; rw [if_neg h]

theorem checked_sub_u64_eq {a b : Nat} (h : b ≤ a) :
    checked_sub_u64 a b = some (a - b) := by
  unfold checked_sub_u64; rw [if_pos h]

/-- A pro-rata payout of at most the full share supply never exceeds the
reserve. -/
theorem payout_le {lp S R : Nat} (hle : lp ≤ S) : lp * R / S ≤ R := by
  apply div_le_of_le_mul
  calc lp * R ≤ S * R := Nat.mul_le_mul_right R hle
    _ = R * S := Nat.mul_comm S R

/-- C1: for every initialized pool and every positive u64 input, the
base→quote swap computes `fee_amount = floor(input * 3 / 1000)`,
`output_amount = floor(input_after_fee * output_reserve /
(input_reserve + input_after_fee))`, and on success the input-side reserve
grows by the full input (fee included) while the output-side reserve
shrinks by `output_amount`; in particular, Scenario A with reserves
1,000,000 / 1,000,000,000 and input 1000 yields fee 3, output 996,006 and
new reserves 1,001,000 / 999,003,994. -/
theorem C1_swap_formula (pool : AmmPool) (x mt : Nat) (p1 : AmmPool) (o : SwapOut)
    (hwf : pool.wf) (hx64 : x < U64_LIMIT)
    (hinit : pool.is_initialized = true) (hx : 0 < x)
    (hok : swap_sol_for_tokens pool x mt = .ok p1 o) :
    o.fee_amount = x * FEE_NUMERATOR / FEE_DENOMINATOR ∧
    o.output_amount = (x - o.fee_amount) * pool.token_reserve /
      (pool.sol_reserve + (x - o.fee_amount)) ∧
    p1.sol_reserve = pool.sol_reserve + x ∧
    p1.token_reserve = pool.token_reserve - o.output_amount ∧
    swap_sol_for_tokens ⟨1000000, 1000000000, 31622776, true⟩ 1000 0 =
      .ok ⟨1001000, 999003994, 31622776, true⟩ ⟨996006, 3⟩ := by
  obtain ⟨-, -, hfee, hout, hfle, -, -, houtlt, -, hp1⟩ := swap_sol_ok_inv hok
  have hfee1 : o.fee_amount = x * FEE_NUMERATOR / FEE_DENOMINATOR := by
    rw [hfee, toU64_eq_of_lt (lt_of_le_of_lt (fee_le x) hx64)]
  have hout1 : o.output_amount = (x - o.fee_amount) * pool.token_reserve /
      (pool.sol_reserve + (x - o.fee_amount)) := by
    rw [hout, toU64_eq_of_lt (lt_of_le_of_lt (swap_out_le _ _ _) hwf.2.1)]
  subst hp1
  exact ⟨hfee1, hout1, rfl, rfl, by decide⟩

theorem C1_swap_formula_witness :
    (3 : Nat) = 1000 * FEE_NUMERATOR / FEE_DENOMINATOR ∧
    (996006 : Nat) = (1000 - 3) * 1000000000 / (1000000 + (1000 - 3)) ∧
    (1001000 : Nat) = 1000000 + 1000 ∧
    (999003994 : Nat) = 1000000000 - 996006 ∧
    swap_sol_for_tokens ⟨1000000, 1000000000, 31622776, true⟩ 1000 0 =
      .ok ⟨1001000, 999003994, 31622776, true⟩ ⟨996006, 3⟩ :=
  C1_swap_formula ⟨1000000, 1000000000, 31622776, true⟩ 1000 0
    ⟨1001000, 999003994, 31622776, true⟩ ⟨996006, 3⟩
    (by decide) (by decide) rfl (by decide) (by decide)

/-- C2: every successful swap, in either direction, leaves the reserve
product `sol_reserve * token_reserve` no smaller than before, and strictly
larger whenever the computed fee is positive. -/
theorem C2_product_nondecreasing (pool : AmmPool) (x mo : Nat)
    (hwf : pool.wf) (hx64 : x < U64_LIMIT) :
    (∀ p1 o, swap_sol_for_tokens pool x mo = .ok p1 o →
      pool.sol_reserve * pool.token_reserve ≤ p1.sol_reserve * p1.token_reserve ∧
      (0 < o.fee_amount →
        pool.sol_reserve * pool.token_reserve < p1.sol_reserve * p1.token_reserve)) ∧
    (∀ p1 o, swap_tokens_for_sol pool x mo = .ok p1 o →
      pool.sol_reserve * pool.token_reserve ≤ p1.sol_reserve * p1.token_reserve ∧
      (0 < o.fee_amount →
        pool.sol_reserve * pool.token_reserve < p1.sol_reserve * p1.token_reserve)) := by
  constructor
  · intro p1 o hok
    obtain ⟨hx, -, hfee, hout, hfle, hdn0, -, houtlt, -, hp1⟩ := swap_sol_ok_inv hok
    have hout1 : o.output_amount = (x - o.fee_amount) * pool.token_reserve /
        (pool.sol_reserve + (x - o.fee_amount)) := by
      rw [hout, toU64_eq_of_lt (lt_of_le_of_lt (swap_out_le _ _ _) hwf.2.1)]
    have hy : o.output_amount * (pool.sol_reserve + (x - o.fee_amount)) ≤
        (x - o.fee_amount) * pool.token_reserve := by
      rw [hout1]; exact Nat.div_mul_le_self _ _
    have hgrow := product_grows hfle hy houtlt
    subst hp1
    exact ⟨hgrow.1, hgrow.2⟩
  · intro p1 o hok
    obtain ⟨hx, -, hfee, hout, hfle, hdn0, -, houtlt, -, hp1⟩ := swap_tok_ok_inv hok
    have hout1 : o.output_amount = (x - o.fee_amount) * pool.sol_reserve /
        (pool.token_reserve + (x - o.fee_amount)) := by
      rw [hout, toU64_eq_of_lt (lt_of_le_of_lt (swap_out_le _ _ _) hwf.1)]
    have hy : o.output_amount * (pool.token_reserve + (x - o.fee_amount)) ≤
        (x - o.fee_amount) * pool.sol_reserve := by
      rw [hout1]; exact Nat.div_mul_le_self _ _
    have hgrow := product_grows hfle hy houtlt
    subst hp1
    constructor
    · show pool.sol_reserve * pool.token_reserve ≤
        (pool.sol_reserve - o.output_amount) * (pool.token_reserve + x)
      calc pool.sol_reserve * pool.token_reserve
          = pool.token_reserve * pool.sol_reserve := Nat.mul_comm _ _
        _ ≤ (pool.token_reserve + x) * (pool.sol_reserve - o.output_amount) := hgrow.1
        _ = (pool.sol_reserve - o.output_amount) * (pool.token_reserve + x) :=
            Nat.mul_comm _ _
    · intro hf
      show pool.sol_reserve * pool.token_reserve <
        (pool.sol_reserve - o.output_amount) * (pool.token_reserve + x)
      calc pool.sol_reserve * pool.token_reserve
          = pool.token_reserve * pool.sol_reserve := Nat.mul_comm _ _
        _ < (pool.token_reserve + x) * (pool.sol_reserve - o.output_amount) := hgrow.2 hf
        _ = (pool.sol_reserve - o.output_amount) * (pool.token_reserve + x) :=
            Nat.mul_comm _ _

theorem C2_product_nondecreasing_witness :
    (1000000 : Nat) * 1000000000 ≤ 1001000 * 999003994 ∧
    (0 < (3 : Nat) → (1000000 : Nat) * 1000000000 < 1001000 * 999003994) :=
  (C2_product_nondecreasing ⟨1000000, 1000000000, 31622776, true⟩ 1000 0
      (by decide) (by decide)).1
    ⟨1001000, 999003994, 31622776, true⟩ ⟨996006, 3⟩ (by decide)


/-- C3 (counterexample): the claim that reserves stay strictly positive
after every committed operation fails: initializing with 1000/1000 mints
exactly 1000 shares, and removing all 1000 shares commits successfully and
drains both reserves to zero while the pool stays initialized. -/
theorem C3_counterexample :
    initialize_pool ⟨0, 0, 0, false⟩ 1000 1000 = .ok ⟨1000, 1000, 1000, true⟩ 1000 ∧
    remove_liquidity ⟨1000, 1000, 1000, true⟩ 1000 0 0 =
      .ok ⟨0, 0, 0, true⟩ ⟨1000, 1000⟩ ∧
    (⟨0, 0, 0, true⟩ : AmmPool).sol_reserve = 0 ∧
    (⟨0, 0, 0, true⟩ : AmmPool).is_initialized = true :=
  ⟨by decide, by decide, rfl, rfl⟩

/-- C3 (amended): strict positivity of both reserves is preserved by both
swap directions and by add_liquidity, but not by remove_liquidity, which
can drain both reserves to zero (removing the entire share supply empties
the pool while it stays marked initialized). -/
theorem C3_amended (pool : AmmPool) (x mo : Nat)
    (hsol : 0 < pool.sol_reserve) (htok : 0 < pool.token_reserve) :
    (∀ p1 o, swap_sol_for_tokens pool x mo = .ok p1 o →
      0 < p1.sol_reserve ∧ 0 < p1.token_reserve) ∧
    (∀ p1 o, swap_tokens_for_sol pool x mo = .ok p1 o →
      0 < p1.sol_reserve ∧ 0 < p1.token_reserve) ∧
    (∀ ml p1 o, add_liquidity pool x mo ml = .ok p1 o →
      0 < p1.sol_reserve ∧ 0 < p1.token_reserve) := by
  refine ⟨?_, ?_, ?_⟩
  · intro p1 o hok
    obtain ⟨-, -, -, -, -, -, -, houtlt, -, hp1⟩ := swap_sol_ok_inv hok
    subst hp1
    exact ⟨by show 0 < pool.sol_reserve + x; omega,
           by show 0 < pool.token_reserve - o.output_amount; omega⟩
  · intro p1 o hok
    obtain ⟨-, -, -, -, -, -, -, houtlt, -, hp1⟩ := swap_tok_ok_inv hok
    subst hp1
    exact ⟨by show 0 < pool.sol_reserve - o.output_amount; omega,
           by show 0 < pool.token_reserve + x; omega⟩
  · intro ml p1 o hok
    obtain ⟨-, -, -, -, -, -, -, -, -, -, -, hp1⟩ := add_ok_inv hok
    subst hp1
    exact ⟨by show 0 < pool.sol_reserve + x; omega,
           by show 0 < pool.token_reserve + o.token_amount; omega⟩

theorem C3_amended_witness : 0 < (1001000 : Nat) ∧ 0 < (999003994 : Nat) :=
  (C3_amended ⟨1000000, 1000000000, 31622776, true⟩ 1000 0
      (by decide) (by decide)).1
    ⟨1001000, 999003994, 31622776, true⟩ ⟨996006, 3⟩ (by decide)

/-- C4 (counterexample): `initialize_pool` does not always set
`share_supply = floor(sqrt(seed_base * seed_quote))`: the f64 computation
rounds the product `1 * (2^60 - 1)` up to `2^60` before taking the square
root, minting `2^30` shares where the integer floor square root is
`2^30 - 1`. -/
theorem C4_counterexample :
    initialize_pool ⟨0, 0, 0, false⟩ 1 (2 ^ 60 - 1) =
      .ok ⟨1, 2 ^ 60 - 1, 2 ^ 30, true⟩ (2 ^ 30) ∧
    Nat.sqrt (1 * (2 ^ 60 - 1)) = 2 ^ 30 - 1 ∧
    (2 ^ 30 : Nat) ≠ 2 ^ 30 - 1 :=
  ⟨by decide,
   by rw [Nat.one_mul]; exact sqrt_eq_exact (by norm_num) (by norm_num),
   by norm_num⟩

/-- C4 (amended): a successful Standard-Pool initialize sets `share_supply`
to the u64 truncation of the IEEE-754 double computation
`sqrt(seed_base as f64 * seed_quote as f64)` and mints all of it to the
initializer; for the particular seeds 1,000,000 and 1,000,000,000 this
coincides with `floor(sqrt(seed_base * seed_quote)) = 31,622,776`, but not
for all seeds. -/
theorem C4_amended :
    initialize_pool ⟨0, 0, 0, false⟩ 1000000 1000000000 =
      .ok ⟨1000000, 1000000000, 31622776, true⟩ 31622776 ∧
    (1000000 : Nat) < 2 ^ 53 ∧ (1000000000 : Nat) < 2 ^ 53 ∧
    Nat.sqrt (1000000 * 1000000000) = 31622776 :=
  ⟨by decide, by norm_num, by norm_num,
   sqrt_eq_exact (by norm_num) (by norm_num)⟩


/-- C5 (counterexample): the computed proportional quote contribution is
not always `floor(base_in * quote_reserve / base_reserve)`: on the pool
(1, 2^63, 1) with base_in = 2 the true quotient is `2^64`, the `as u64`
cast silently truncates it to 0, and the operation then commits
successfully with a zero quote contribution. -/
theorem C5_counterexample :
    add_liquidity ⟨1, 2 ^ 63, 1, true⟩ 2 (2 ^ 64 - 1) 0 =
      .ok ⟨3, 2 ^ 63, 1, true⟩ ⟨0, 0⟩ ∧
    2 * (2 ^ 63 : Nat) / 1 = 2 ^ 64 ∧
    (0 : Nat) ≠ 2 ^ 64 :=
  ⟨by decide, by norm_num, by norm_num⟩

/-- C5 (amended): `add_liquidity` computes
`quote_in = floor(base_in * quote_reserve / base_reserve) mod 2^64` (the
mod being the silent u64 truncation, the identity whenever the quotient
fits u64), fails with SlippageExceeded when `quote_in > max_quote_in`, and
mints `min(floor(base_in * share_supply / base_reserve) mod 2^64,
floor(quote_in * share_supply / quote_reserve) mod 2^64)`; in particular on
Scenario B the results are quote_in = 1,000,000 and minted = 31,622. -/
theorem C5_add_formula (pool : AmmPool) (b mq ml : Nat)
    (hinit : pool.is_initialized = true) (hS : 0 < pool.lp_supply)
    (hb : 0 < b) (hwf : pool.wf) (hb64 : b < U64_LIMIT) :
    (∀ p1 o, add_liquidity pool b mq ml = .ok p1 o →
      o.token_amount = toU64 (b * pool.token_reserve / pool.sol_reserve) ∧
      o.lp_amount = min (toU64 (b * pool.lp_supply / pool.sol_reserve))
        (toU64 (o.token_amount * pool.lp_supply / pool.token_reserve))) ∧
    (0 < pool.sol_reserve →
      mq < toU64 (b * pool.token_reserve / pool.sol_reserve) →
      add_liquidity pool b mq ml = .err pool .SlippageExceeded) ∧
    add_liquidity ⟨1000000, 1000000000, 31622776, true⟩ 1000 1000000 0 =
      .ok ⟨1001000, 1001000000, 31654398, true⟩ ⟨1000000, 31622⟩ := by
  refine ⟨?_, ?_, by decide⟩
  · intro p1 o hok
    obtain ⟨-, -, -, -, hq, -, hm, -, -, -, -, -⟩ := add_ok_inv hok
    exact ⟨hq, hm⟩
  · intro hsolpos hmq
    simp only [add_liquidity]
    split
    · rename_i hc; exact absurd hb hc
    split
    · rename_i heq
      rw [checked_mul_u128_eq hb64 hwf.2.1] at heq
      exact Option.noConfusion heq
    rename_i m1 hm1
    split
    · rename_i heq
      rw [checked_div_u128_eq (Nat.pos_iff_ne_zero.mp hsolpos)] at heq
      exact Option.noConfusion heq
    rename_i d1 hd1
    obtain ⟨hm11, -⟩ := checked_mul_u128_some hm1
    obtain ⟨hd11, -⟩ := checked_div_u128_some hd1
    subst hm11 hd11
    split
    · rfl
    · rename_i hc
      rw [not_not] at hc
      omega

theorem C5_add_formula_witness :
    ((⟨1000000, 31622⟩ : AddOut).token_amount =
      toU64 (1000 * 1000000000 / 1000000) ∧
    (⟨1000000, 31622⟩ : AddOut).lp_amount =
      min (toU64 (1000 * 31622776 / 1000000))
        (toU64 ((⟨1000000, 31622⟩ : AddOut).token_amount * 31622776 / 1000000000))) :=
  (C5_add_formula ⟨1000000, 1000000000, 31622776, true⟩ 1000 1000000 0
      rfl (by decide) (by decide) (by decide) (by decide)).1
    ⟨1001000, 1001000000, 31654398, true⟩ ⟨1000000, 31622⟩ (by decide)

/-- C6: a successful `add_liquidity` contributing `(base_in, quote_in)` and
minting `m` shares, immediately followed by a successful `remove_liquidity`
of exactly those `m` shares, pays out at most the contributed amounts:
`base_out ≤ base_in` and `quote_out ≤ quote_in`. -/
theorem C6_round_trip (pool : AmmPool) (b mq ml : Nat) (p1 : AmmPool) (q m : Nat)
    (ms mt : Nat) (p2 : AmmPool) (bo qo : Nat)
    (hadd : add_liquidity pool b mq ml = .ok p1 ⟨q, m⟩)
    (hrem : remove_liquidity p1 m ms mt = .ok p2 ⟨bo, qo⟩) :
    bo ≤ b ∧ qo ≤ q := by
  obtain ⟨-, -, -, -, hq, -, hm, -, -, -, -, hp1⟩ := add_ok_inv hadd
  obtain ⟨-, -, hlp0, hbo, hqo, -, -, -, -, -, -⟩ := remove_ok_inv hrem
  subst hp1
  dsimp only at hq hm hbo hqo
  have hmB : m ≤ b * pool.lp_supply / pool.sol_reserve := by
    rw [hm]; exact le_trans (min_le_left _ _) (toU64_le _)
  have hmQ : m ≤ q * pool.lp_supply / pool.token_reserve := by
    rw [hm]; exact le_trans (min_le_right _ _) (toU64_le _)
  have hmB2 : m * pool.sol_reserve ≤ b * pool.lp_supply :=
    le_trans (Nat.mul_le_mul_right _ hmB) (Nat.div_mul_le_self _ _)
  have hmQ2 : m * pool.token_reserve ≤ q * pool.lp_supply :=
    le_trans (Nat.mul_le_mul_right _ hmQ) (Nat.div_mul_le_self _ _)
  constructor
  · have hnum : m * (pool.sol_reserve + b) ≤ b * (pool.lp_supply + m) := by
      have e1 : m * (pool.sol_reserve + b) = m * pool.sol_reserve + m * b :=
        Nat.mul_add m _ _
      have e2 : b * (pool.lp_supply + m) = b * pool.lp_supply + b * m :=
        Nat.mul_add b _ _
      have e3 : m * b = b * m := Nat.mul_comm m b
      omega
    have hb1 : bo ≤ m * (pool.sol_reserve + b) / (pool.lp_supply + m) := by
      rw [hbo]; exact toU64_le _
    exact le_trans hb1 (div_le_of_le_mul hnum)
  · have hnum : m * (pool.token_reserve + q) ≤ q * (pool.lp_supply + m) := by
      have e1 : m * (pool.token_reserve + q) = m * pool.token_reserve + m * q :=
        Nat.mul_add m _ _
      have e2 : q * (pool.lp_supply + m) = q * pool.lp_supply + q * m :=
        Nat.mul_add q _ _
      have e3 : m * q = q * m := Nat.mul_comm m q
      omega
    have hq1 : qo ≤ m * (pool.token_reserve + q) / (pool.lp_supply + m) := by
      rw [hqo]; exact toU64_le _
    exact le_trans hq1 (div_le_of_le_mul hnum)

theorem C6_round_trip_witness : (999 : Nat) ≤ 1000 ∧ (999975 : Nat) ≤ 1000000 :=
  C6_round_trip ⟨1000000, 1000000000, 31622776, true⟩ 1000 1000000 0
    ⟨1001000, 1001000000, 31654398, true⟩ 1000000 31622 0 0
    ⟨1000001, 1000000025, 31622776, true⟩ 999 999975
    (by decide) (by decide)


/-- C7 (counterexample): a zero divisor does not surface as an
ArithmeticOverflow error result: `remove_liquidity` on a pool with
`lp_supply = 0` panics on the `.unwrap()` of `checked_div` (an abort, not
an error return — its `errCode` is `none`). -/
theorem C7_counterexample :
    remove_liquidity ⟨10, 10, 0, true⟩ 1 0 0 = .abort ⟨10, 10, 0, true⟩ ∧
    (remove_liquidity ⟨10, 10, 0, true⟩ 1 0 0).errCode = none :=
  ⟨by decide, by decide⟩

/-- C7 (amended): checked-arithmetic failure aborts the instruction (a
panic on `.unwrap()`) instead of returning a typed arithmetic error; in
particular a division by zero (here: any remove_liquidity on a pool with
zero share supply) always aborts, before any reserve mutation. -/
theorem C7_zero_divisor_aborts (pool : AmmPool) (lp ms mt : Nat)
    (hinit : pool.is_initialized = true) (hS : pool.lp_supply = 0)
    (hlp : 0 < lp) :
    remove_liquidity pool lp ms mt = .abort pool := by
  simp only [remove_liquidity]
  split
  · rename_i hc; exact absurd hlp hc
  split
  · rfl
  rename_i m1 hm1
  split
  · rfl
  rename_i d1 hd1
  rw [hS] at hd1
  unfold checked_div_u128 at hd1
  simp at hd1

theorem C7_zero_divisor_aborts_witness :
    remove_liquidity ⟨5, 7, 0, true⟩ 2 0 0 = .abort ⟨5, 7, 0, true⟩ :=
  C7_zero_divisor_aborts ⟨5, 7, 0, true⟩ 2 0 0 rfl rfl (by decide)

/-- C8 (counterexample): an arithmetic failure can abort after part of the
commit set is written: on the pool (1, 2^64-1, 0), `add_liquidity` with
base_in = 1 first commits `sol_reserve := 2`, then panics when the
token-reserve addition overflows, leaving the staged pool partially
updated (host transaction rollback, not the core, restores the state). -/
theorem C8_counterexample :
    add_liquidity ⟨1, 2 ^ 64 - 1, 0, true⟩ 1 (2 ^ 64 - 1) 0 =
      .abort ⟨2, 2 ^ 64 - 1, 0, true⟩ ∧
    (⟨2, 2 ^ 64 - 1, 0, true⟩ : AmmPool) ≠ ⟨1, 2 ^ 64 - 1, 0, true⟩ :=
  ⟨by decide, by decide⟩

/-- C8 (amended): every error *return* (InvalidAmount, PoolNotInitialized,
SlippageExceeded, InsufficientLiquidity) of any of the five instructions
leaves the pool exactly as it was before the call — all `require!` exits
precede every reserve mutation; only a commit-phase arithmetic panic can
leave staged partial state behind. -/
theorem C8_no_partial_commit_on_error (pool : AmmPool)
    (s t b mq ml lp ms mt x mo y mo2 : Nat) :
    (initialize_pool pool s t).errKeeps pool = true ∧
    (add_liquidity pool b mq ml).errKeeps pool = true ∧
    (remove_liquidity pool lp ms mt).errKeeps pool = true ∧
    (swap_sol_for_tokens pool x mo).errKeeps pool = true ∧
    (swap_tokens_for_sol pool y mo2).errKeeps pool = true := by
  refine ⟨?_, ?_, ?_, ?_, ?_⟩ <;>
    · simp only [initialize_pool, add_liquidity, remove_liquidity,
        swap_sol_for_tokens, swap_tokens_for_sol]
      repeat' split
      all_goals simp [Outcome.errKeeps]

/-- Helper for C9: for positive reserves the base→quote swap can never
take the InsufficientLiquidity branch. -/
theorem swap_sol_no_insufficient (pool : AmmPool) (x mo : Nat)
    (hsol : 0 < pool.sol_reserve) (htok : 0 < pool.token_reserve) :
    (swap_sol_for_tokens pool x mo).errCode ≠ some .InsufficientLiquidity := by
  simp only [swap_sol_for_tokens]
  split
  · simp [Outcome.errCode]
  split
  · simp [Outcome.errCode]
  split
  · simp [Outcome.errCode]
  rename_i mf hmf
  split
  · simp [Outcome.errCode]
  rename_i df hdf
  split
  · simp [Outcome.errCode]
  rename_i saf hsaf
  split
  · simp [Outcome.errCode]
  rename_i mn hmn
  split
  · simp [Outcome.errCode]
  rename_i dn hdn
  split
  · simp [Outcome.errCode]
  rename_i dq hdq
  split
  · simp [Outcome.errCode]
  rename_i hsl
  split
  · rename_i hliq
    obtain ⟨hmn1, -⟩ := checked_mul_u128_some hmn
    obtain ⟨hdn1, -⟩ := checked_add_u128_some hdn
    obtain ⟨hdq1, -⟩ := checked_div_u128_some hdq
    subst hmn1 hdn1 hdq1
    exact absurd (lt_of_le_of_lt (toU64_le _) (swap_out_lt saf htok hsol)) hliq
  split
  · simp [Outcome.errCode]
  rename_i ns hns
  split
  · simp [Outcome.errCode]
  · simp [Outcome.errCode]

/-- Helper for C9, quote→base direction. -/
theorem swap_tok_no_insufficient (pool : AmmPool) (x mo : Nat)
    (hsol : 0 < pool.sol_reserve) (htok : 0 < pool.token_reserve) :
    (swap_tokens_for_sol pool x mo).errCode ≠ some .InsufficientLiquidity := by
  simp only [swap_tokens_for_sol]
  split
  · simp [Outcome.errCode]
  split
  · simp [Outcome.errCode]
  split
  · simp [Outcome.errCode]
  rename_i mf hmf
  split
  · simp [Outcome.errCode]
  rename_i df hdf
  split
  · simp [Outcome.errCode]
  rename_i taf htaf
  split
  · simp [Outcome.errCode]
  rename_i mn hmn
  split
  · simp [Outcome.errCode]
  rename_i dn hdn
  split
  · simp [Outcome.errCode]
  rename_i dq hdq
  split
  · simp [Outcome.errCode]
  rename_i hsl
  split
  · rename_i hliq
    obtain ⟨hmn1, -⟩ := checked_mul_u128_some hmn
    obtain ⟨hdn1, -⟩ := checked_add_u128_some hdn
    obtain ⟨hdq1, -⟩ := checked_div_u128_some hdq
    subst hmn1 hdn1 hdq1
    exact absurd (lt_of_le_of_lt (toU64_le _) (swap_out_lt taf hsol htok)) hliq
  split
  · simp [Outcome.errCode]
  rename_i ns hns
  split
  · simp [Outcome.errCode]
  · simp [Outcome.errCode]

/-- C9 (counterexample): with input-side reserve ≥ 1 but output-side
reserve 0 the quoted output is 0, which is not `< 0`, and the
InsufficientLiquidity branch IS taken — the claim's hypothesis on the
input-side reserve alone does not make the branch unreachable. -/
theorem C9_counterexample :
    swap_sol_for_tokens ⟨1, 0, 0, true⟩ 1000 0 =
      .err ⟨1, 0, 0, true⟩ .InsufficientLiquidity ∧
    1 ≤ (⟨1, 0, 0, true⟩ : AmmPool).sol_reserve :=
  ⟨by decide, by decide⟩

/-- C9 (amended): whenever BOTH reserves are positive, the computed output
is strictly below the opposing reserve and the InsufficientLiquidity
branch is unreachable in either swap direction. -/
theorem C9_insufficient_unreachable (pool : AmmPool) (x mo : Nat)
    (hsol : 0 < pool.sol_reserve) (htok : 0 < pool.token_reserve) :
    (x - toU64 (x * FEE_NUMERATOR / FEE_DENOMINATOR)) * pool.token_reserve /
        (pool.sol_reserve + (x - toU64 (x * FEE_NUMERATOR / FEE_DENOMINATOR))) <
      pool.token_reserve ∧
    (swap_sol_for_tokens pool x mo).errCode ≠ some .InsufficientLiquidity ∧
    (swap_tokens_for_sol pool x mo).errCode ≠ some .InsufficientLiquidity :=
  ⟨swap_out_lt _ htok hsol,
   swap_sol_no_insufficient pool x mo hsol htok,
   swap_tok_no_insufficient pool x mo hsol htok⟩

theorem C9_insufficient_unreachable_witness :
    (1000 - toU64 (1000 * FEE_NUMERATOR / FEE_DENOMINATOR)) * 1000000000 /
        (1000000 + (1000 - toU64 (1000 * FEE_NUMERATOR / FEE_DENOMINATOR))) <
      1000000000 ∧
    (swap_sol_for_tokens ⟨1000000, 1000000000, 31622776, true⟩ 1000 0).errCode ≠
      some .InsufficientLiquidity ∧
    (swap_tokens_for_sol ⟨1000000, 1000000000, 31622776, true⟩ 1000 0).errCode ≠
      some .InsufficientLiquidity :=
  C9_insufficient_unreachable ⟨1000000, 1000000000, 31622776, true⟩ 1000 0
    (by decide) (by decide)

/-- C10: for an initialized pool and `0 < shares_in ≤ share_supply`, the
computed pro-rata payouts are bounded by the reserves and the three
commit-phase subtractions never underflow — `remove_liquidity` never
aborts on such inputs. -/
theorem C10_remove_in_bounds (pool : AmmPool) (lp ms mt : Nat)
    (hwf : pool.wf) (hinit : pool.is_initialized = true)
    (hlp : 0 < lp) (hle : lp ≤ pool.lp_supply) :
    toU64 (lp * pool.sol_reserve / pool.lp_supply) ≤ pool.sol_reserve ∧
    toU64 (lp * pool.token_reserve / pool.lp_supply) ≤ pool.token_reserve ∧
    (remove_liquidity pool lp ms mt).isAbort = false := by
  have hS : 0 < pool.lp_supply := lt_of_lt_of_le hlp hle
  have hS0 : pool.lp_supply ≠ 0 := Nat.pos_iff_ne_zero.mp hS
  have hlp64 : lp < U64_LIMIT := lt_of_le_of_lt hle hwf.2.2
  have hsolb : toU64 (lp * pool.sol_reserve / pool.lp_supply) ≤ pool.sol_reserve :=
    le_trans (toU64_le _) (payout_le hle)
  have htokb : toU64 (lp * pool.token_reserve / pool.lp_supply) ≤ pool.token_reserve :=
    le_trans (toU64_le _) (payout_le hle)
  refine ⟨hsolb, htokb, ?_⟩
  simp only [remove_liquidity]
  split
  · rename_i hc; exact absurd hlp hc
  split
  · rename_i heq
    rw [checked_mul_u128_eq hlp64 hwf.1] at heq
    exact Option.noConfusion heq
  rename_i m1 hm1
  split
  · rename_i heq
    rw [checked_div_u128_eq hS0] at heq
    exact Option.noConfusion heq
  rename_i d1 hd1
  split
  · rename_i heq
    rw [checked_mul_u128_eq hlp64 hwf.2.1] at heq
    exact Option.noConfusion heq
  rename_i m2 hm2
  split
  · rename_i heq
    rw [checked_div_u128_eq hS0] at heq
    exact Option.noConfusion heq
  rename_i d2 hd2
  split
  · simp [Outcome.isAbort]
  split
  · simp [Outcome.isAbort]
  obtain ⟨hm11, -⟩ := checked_mul_u128_some hm1
  obtain ⟨hd11, -⟩ := checked_div_u128_some hd1
  obtain ⟨hm21, -⟩ := checked_mul_u128_some hm2
  obtain ⟨hd21, -⟩ := checked_div_u128_some hd2
  subst hm11 hd11 hm21 hd21
  split
  · rename_i heq
    rw [checked_sub_u64_eq hsolb] at heq
    exact Option.noConfusion heq
  rename_i ns hns
  split
  · rename_i heq
    rw [checked_sub_u64_eq htokb] at heq
    exact Option.noConfusion heq
  rename_i nt hnt
  split
  · rename_i heq
    rw [checked_sub_u64_eq hle] at heq
    exact Option.noConfusion heq
  simp [Outcome.isAbort]

theorem C10_remove_in_bounds_witness :
    toU64 (500 * 1000 / 1000) ≤ 1000 ∧ toU64 (500 * 2000 / 1000) ≤ 2000 ∧
    (remove_liquidity ⟨1000, 2000, 1000, true⟩ 500 0 0).isAbort = false :=
  C10_remove_in_bounds ⟨1000, 2000, 1000, true⟩ 500 0 0
    (by decide) rfl (by decide) (by decide)
